import Mathlib

/-!
Verification of the data-access layer in `src/api.js` (web-admin).

The module is glue code translating function calls into filtered
SELECT/INSERT/UPDATE/DELETE requests against a hosted backend (supabase).
We shallowly embed the operations the claims concern: rows are JS objects
modelled as association lists where a later binding shadows an earlier one
(exactly the semantics of the JS spread `{...obj, k: v}`), a table is a list
of rows, and each operation takes the table plus an `err : Option String`
standing for whether the backend reported an error on the single round trip.
-/

set_option autoImplicit false

namespace WebAdmin

/-- A JS value as this layer manipulates it: strings, numbers
(timestamps from `Date.now()` are numbers), `Date` objects (carrying the
clock reading in milliseconds), and `undefined` for an absent field. -/
inductive Value where
  | str : String → Value
  | num : Nat → Value
  | time : Nat → Value
  | undef : Value
deriving DecidableEq, Repr

/-- A JS object / table row: an association list of field bindings.
A binding further to the RIGHT shadows an earlier one, so the object
literal `{...obj, k: v}` is `obj ++ [(k, v)]`. -/
abbrev Row := List (String × Value)

/-- Field lookup honouring the later-binding-wins semantics of `Row`. -/
def getField : Row → String → Option Value
  | [], _ => none
  | (k', v) :: rest, k =>
    match getField rest k with
    | some w => some w
    | none => if k' == k then some v else none

/-- JS member access `obj.k`: an absent field reads as `undefined`. -/
def jsField (r : Row) (k : String) : Value :=
  (getField r k).getD Value.undef

/-- JS truthiness of a `Value` (`if (employee.pin) ...`): empty string,
zero and `undefined` are falsy; `Date` objects are always truthy. -/
def truthy : Value → Bool
  | .str s => s ≠ ""
  | .num n => n ≠ 0
  | .time _ => true
  | .undef => false

/-- JS string coercion, as applied to the argument of the hash helper. -/
def strOf : Value → String
  | .str s => s
  | .num n => toString n
  | .time n => toString n
  | .undef => "undefined"

/-- JS `String.prototype.toLowerCase()`: lowercases every character. -/
def jsToLowerCase (s : String) : String :=
  ⟨s.data.map Char.toLower⟩

/-- JS `String.prototype.trim()`: strips whitespace from both ends. -/
def jsTrim (s : String) : String :=
  ⟨((s.data.dropWhile Char.isWhitespace).reverse.dropWhile
      Char.isWhitespace).reverse⟩

instance {ε α : Type} [DecidableEq ε] [DecidableEq α] : DecidableEq (Except ε α) :=
  fun x y =>
    match x, y with
    | .ok a, .ok b =>
      if h : a = b then isTrue (by rw [h]) else isFalse (by simp [h])
    | .error a, .error b =>
      if h : a = b then isTrue (by rw [h]) else isFalse (by simp [h])
    | .ok _, .error _ => isFalse (by simp)
    | .error _, .ok _ => isFalse (by simp)

/-- Source helper `hashPin`: `CryptoJS.SHA256(pin).toString(CryptoJS.enc.Base64)`.
The digest itself comes from the external crypto-js library; we model it as
an abstract deterministic injective encoding (the spec's PinHasher contract:
deterministic, equal inputs give equal digests).  No claim depends on the
digest's internal structure, only on where the layer stores and compares it. -/
def hashPin (pin : String) : String :=
  "sha256b64:" ++ pin

/-- The supabase `.single()` modifier: `(data, error)` is `(row, null)` when
the result set has exactly one row, and `(null, PGRST116-style error)`
otherwise (zero rows or more than one). -/
def singleResp (rows : List Row) : Option Row × Option String :=
  match rows with
  | [r] => (some r, none)
  | _ => (none, some "PGRST116")

/-! ## AUTH -/

/-- The row filter built by `login`'s query:
`.eq('email', email.toLowerCase().trim()).eq('pin_hash', pinHash)`. -/
def loginMatches (email password : String) (r : Row) : Bool :=
  getField r "email" == some (Value.str (jsTrim (jsToLowerCase email))) &&
  getField r "pin_hash" == some (Value.str (hashPin password))

/-- Source function `login(email, password)`: selects from `employees` with the two equality
filters and `.single()`; `if (error || !data) throw new Error('LOGIN_FAILED')`,
otherwise returns the row.  `err` is a backend-reported failure of the
round trip, which surfaces through the same `error` slot. -/
def login (email password : String) (db : List Row) (err : Option String) :
    Except String Row :=
  let resp : Option Row × Option String :=
    match err with
    | some m => (none, some m)
    | none => singleResp (db.filter (loginMatches email password))
  match resp with
  | (some d, none) => .ok d
  | _ => .error "LOGIN_FAILED"

/-! ## ITEMS -/

/-- Predicate transformer: `suffixAny f s` holds when `f` accepts some suffix of `s`
(including `s` itself and the empty suffix). -/
def suffixAny (f : List Char → Bool) : List Char → Bool
  | [] => f []
  | c :: s => f (c :: s) || suffixAny f s

/-- SQL `ILIKE` pattern matching over characters: `%` matches any sequence,
`_` matches any single character, and a literal character matches
case-insensitively.  This is the semantics the backend gives the pattern
that `searchItems` builds. -/
def likeMatch : List Char → List Char → Bool
  | [], s => s.isEmpty
  | p :: ps, s =>
    if p = '%' then suffixAny (fun t => likeMatch ps t) s
    else
      match s with
      | [] => false
      | c :: s' =>
        if p = '_' then likeMatch ps s'
        else (p.toLower == c.toLower) && likeMatch ps s'

/-- The backend's `.ilike(column, pattern)` filter on a text value. -/
def ilike (s pat : String) : Bool :=
  likeMatch pat.data s.data

/-- Source function `searchItems(query)`: selects items with `.ilike('name', `%${query}%`)`;
`if (error) throw error`. -/
def searchItems (query : String) (db : List Row) (err : Option String) :
    Except String (List Row) :=
  match err with
  | some m => .error m
  | none =>
    .ok (db.filter (fun r =>
      match getField r "name" with
      | some (.str n) => ilike n ("%" ++ query ++ "%")
      | _ => false))

/-- Case-insensitive lead-of-list match: the first list is a prefix of the
second, comparing characters case-insensitively. -/
def leadMatchCI : List Char → List Char → Bool
  | [], _ => true
  | _ :: _, [] => false
  | a :: as, b :: bs => (a.toLower == b.toLower) && leadMatchCI as bs

/-- Spec-side definition (claim C10's words): `name` contains `q` as a
case-insensitive substring. -/
def containsCI (name q : String) : Bool :=
  suffixAny (leadMatchCI q.data) name.data

/-- The success marker `{ success: true }` returned by the delete operations. -/
structure DeleteResult where
  success : Bool
deriving DecidableEq, Repr

/-- Source function `deleteItem(id)`: `.delete().eq('id', id)`; `if (error) throw error;
return { success: true }`.  The result pairs the table after the deletion
with the returned marker; no existence check is made. -/
def deleteItem (id : Value) (db : List Row) (err : Option String) :
    Except String (List Row × DeleteResult) :=
  match err with
  | some m => .error m
  | none => .ok (db.filter (fun r => !(getField r "id" == some id)), ⟨true⟩)

/-! ## EMPLOYEES -/

/-- The row `addEmployee` sends to the insert:
`{...employee, pin_hash: hashPin(employee.pin), created_at: new Date(),
updated_at: new Date()}`.  Both `new Date()` constructions are modelled by
the same clock reading `now`. -/
def addEmployeeRow (employee : Row) (now : Nat) : Row :=
  employee ++
    [("pin_hash", Value.str (hashPin (strOf (jsField employee "pin")))),
     ("created_at", Value.time now),
     ("updated_at", Value.time now)]

/-- Source function `addEmployee(employee)`: inserts `addEmployeeRow` and returns it via
`.select().single()`; `if (error) throw error`. -/
def addEmployee (employee : Row) (now : Nat) (err : Option String) :
    Except String Row :=
  match err with
  | some m => .error m
  | none => .ok (addEmployeeRow employee now)

/-- The payload `updateEmployee` sends:
`const payload = { ...employee, updated_at: new Date() };
if (employee.pin) { payload.pin_hash = hashPin(employee.pin); }`. -/
def updateEmployeePayload (employee : Row) (now : Nat) : Row :=
  let payload := employee ++ [("updated_at", Value.time now)]
  if truthy (jsField employee "pin") then
    payload ++ [("pin_hash", Value.str (hashPin (strOf (jsField employee "pin"))))]
  else payload

/-- The backend applying an UPDATE payload to a stored row: every column
bound in the payload is overwritten, which under later-binding-wins lookup
is exactly appending the payload. -/
def applyUpdate (stored payload : Row) : Row :=
  stored ++ payload

/-- Source function `updateEmployee(employee)`: `.update(payload).eq('id', employee.id)
.select().single()`; `if (error) throw error`. -/
def updateEmployee (employee : Row) (now : Nat) (db : List Row)
    (err : Option String) : Except String Row :=
  match err with
  | some m => .error m
  | none =>
    let touched :=
      (db.filter (fun r => getField r "id" == some (jsField employee "id"))).map
        (fun r => applyUpdate r (updateEmployeePayload employee now))
    match singleResp touched with
    | (some d, none) => .ok d
    | (_, some m) => .error m
    | (none, none) => .error "PGRST116"

/-! ## TASKS -/

/-- The row `addTask` sends to the insert:
`const taskId = `TASK${Date.now()}`;` then
`{...taskData, task_id: taskId, created_at: new Date()}`.  The `Date.now()`
read and the `new Date()` construction are modelled by the same clock
reading `now`. -/
def addTaskRow (taskData : Row) (now : Nat) : Row :=
  taskData ++
    [("task_id", Value.str ("TASK" ++ toString now)),
     ("created_at", Value.time now)]

/-- Source function `addTask(taskData)`: inserts `addTaskRow` and returns it via
`.select().single()`; `if (error) throw error`. -/
def addTask (taskData : Row) (now : Nat) (err : Option String) :
    Except String Row :=
  match err with
  | some m => .error m
  | none => .ok (addTaskRow taskData now)

/-- Source function `deleteTask(taskId)`: `.delete().eq('task_id', taskId)`;
`if (error) throw error; return { success: true }`. -/
def deleteTask (taskId : String) (db : List Row) (err : Option String) :
    Except String (List Row × DeleteResult) :=
  match err with
  | some m => .error m
  | none =>
    .ok (db.filter (fun r => !(getField r "task_id" == some (Value.str taskId))),
         ⟨true⟩)

/-! ## SETTINGS -/

/-- The filter of `getLowStockThreshold`'s query:
`.eq('setting_key', 'LOW_STOCK_THRESHOLD')`. -/
def isThresholdRow (r : Row) : Bool :=
  getField r "setting_key" == some (Value.str "LOW_STOCK_THRESHOLD")

/-- Source function `getLowStockThreshold()`: select with the fixed-key filter and
`.limit(1)`; `if (error || !data || data.length === 0) return null;
return data[0];` — note it returns `null` rather than throwing, also on a
backend error. -/
def getLowStockThreshold (db : List Row) (err : Option String) :
    Except String (Option Row) :=
  match err with
  | some _ => .ok none
  | none =>
    match (db.filter isThresholdRow).take 1 with
    | [] => .ok none
    | r :: _ => .ok (some r)

/-! ## Helper lemmas about field lookup -/

theorem getField_cons_or (k' k : String) (v : Value) (rest : Row) :
    getField ((k', v) :: rest) k
      = (getField rest k).or (if k' == k then some v else none) := by
  cases h : getField rest k <;> simp [getField, h, Option.or]

theorem getField_append (a b : Row) (k : String) :
    getField (a ++ b) k = (getField b k).or (getField a k) := by
  induction a with
  | nil => cases h : getField b k <;> simp [getField, h, Option.or]
  | cons p rest ih =>
    cases p with
    | mk k' v =>
      rw [List.cons_append, getField_cons_or, getField_cons_or, ih,
        Option.or_assoc]

/-! ## Claims -/

/-- C1, counterexample: the claim says the row sent to the insert "contains
only `pin_hash` and never the raw `pin` value", but for the concrete input
`{name: "Ann", pin: "1234"}` the row `addEmployee` sends still carries the
plaintext `pin` field, because the input is spread into the insert object. -/
theorem addEmployee_insert_contains_raw_pin_cex :
    getField (addEmployeeRow [("name", Value.str "Ann"), ("pin", Value.str "1234")] 0) "pin"
      = some (Value.str "1234") := by decide

/-- C1, amended: for every input to `addEmployee`, the row sent to the insert
carries `pin_hash = hash(pin)`, but the raw `pin` field is forwarded as-is
from the input into that row (the row's `pin` field equals the input's),
so a plaintext secret is stored whenever the input carries one. -/
theorem addEmployeeRow_hashes_and_forwards_pin (employee : Row) (now : Nat) :
    getField (addEmployeeRow employee now) "pin_hash"
      = some (Value.str (hashPin (strOf (jsField employee "pin")))) ∧
    getField (addEmployeeRow employee now) "pin" = getField employee "pin" := by
  unfold addEmployeeRow
  rw [getField_append, getField_append]
  constructor
  · simp [getField, Option.or]
  · simp [getField, Option.or]

/-- C2: `login` looks up the employee whose `email` equals the lowercased,
trimmed input email and whose `pin_hash` equals `hash(password)` (it succeeds
with row `r` exactly when that filter selects `[r]`); in particular
`login("User@Example.com", p)` and `login("user@example.com ", p)` behave
identically on every table and every backend outcome. -/
theorem login_email_normalization :
    (∀ (p : String) (db : List Row) (err : Option String),
      login "User@Example.com" p db err = login "user@example.com " p db err) ∧
    (∀ (e p : String) (db : List Row) (r : Row),
      login e p db none = .ok r ↔ db.filter (loginMatches e p) = [r]) := by
  constructor
  · intro p db err
    have hfun : loginMatches "User@Example.com" p
        = loginMatches "user@example.com " p := by
      funext r
      have h : jsTrim (jsToLowerCase "User@Example.com")
          = jsTrim (jsToLowerCase "user@example.com ") := by decide
      simp [loginMatches, h]
    simp [login, hfun]
  · intro e p db r
    cases h : db.filter (loginMatches e p) with
    | nil => simp [login, singleResp, h]
    | cons a rest =>
      cases rest with
      | nil => simp [login, singleResp, h]
      | cons b t => simp [login, singleResp, h]

/-- C2 witness: the normalization identity applied at a concrete input. -/
theorem login_email_normalization_witness :
    login "User@Example.com" "1234" [] none
      = login "user@example.com " "1234" [] none :=
  login_email_normalization.1 "1234" [] none

/-- C3: `login` fails exactly when zero rows match, more than one row
matches, or the backend reports an error, and the raised error is the one
fixed value `LOGIN_FAILED` in every failing case, revealing nothing about
which of the email, the PIN, or the backend caused the failure. -/
theorem login_fixed_error_exactly_on_failure :
    (∀ (e p : String) (db : List Row) (err : Option String) (msg : String),
      login e p db err = .error msg → msg = "LOGIN_FAILED") ∧
    (∀ (e p : String) (db : List Row) (err : Option String),
      (∃ msg, login e p db err = .error msg) ↔
        (err.isSome = true ∨ (db.filter (loginMatches e p)).length ≠ 1)) := by
  constructor
  · intro e p db err msg h
    cases err with
    | some m =>
      simp [login] at h
      first
      | exact h
      | exact h.symm
    | none =>
      cases hf : db.filter (loginMatches e p) with
      | nil =>
        rw [login] at h; simp [singleResp, hf] at h
        first
        | exact h
        | exact h.symm
      | cons a rest =>
        cases rest with
        | nil => rw [login] at h; simp [singleResp, hf] at h
        | cons b t =>
          rw [login] at h; simp [singleResp, hf] at h
          first
          | exact h
          | exact h.symm
  · intro e p db err
    cases err with
    | some m => simp [login]
    | none =>
      cases hf : db.filter (loginMatches e p) with
      | nil => simp [login, singleResp, hf]
      | cons a rest =>
        cases rest with
        | nil => simp [login, singleResp, hf]
        | cons b t => simp [login, singleResp, hf]

/-- C3 witness: on an empty table (zero matches) `login` does fail. -/
theorem login_fixed_error_witness :
    ∃ msg, login "a@b.c" "1234" [] none = .error msg :=
  (login_fixed_error_exactly_on_failure.2 "a@b.c" "1234" [] none).mpr
    (Or.inr (by decide))

/-- C4: `updateEmployee` recomputes `pin_hash` only when a pin is present in
the input (indeed a truthy one); when the `pin` field is omitted the payload
carries no `pin_hash` of the function's making, so — unless the input itself
smuggles a `pin_hash` field — the stored hash is untouched by the update. -/
theorem updateEmployee_pin_hash_frame :
    ∀ (employee : Row) (now : Nat) (stored : Row),
      (getField employee "pin" = none →
        getField (updateEmployeePayload employee now) "pin_hash"
          = getField employee "pin_hash" ∧
        (getField employee "pin_hash" = none →
          getField (applyUpdate stored (updateEmployeePayload employee now)) "pin_hash"
            = getField stored "pin_hash")) ∧
      (getField (updateEmployeePayload employee now) "pin_hash"
          ≠ getField employee "pin_hash" →
        truthy (jsField employee "pin") = true) := by
  intro employee now stored
  constructor
  · intro hpin
    have hguard : truthy (jsField employee "pin") = false := by
      simp [jsField, hpin, truthy]
    have hpayload : updateEmployeePayload employee now
        = employee ++ [("updated_at", Value.time now)] := by
      simp [updateEmployeePayload, hguard]
    have h1 : getField (updateEmployeePayload employee now) "pin_hash"
        = getField employee "pin_hash" := by
      rw [hpayload, getField_append]
      simp [getField, Option.or]
    refine ⟨h1, fun hemp => ?_⟩
    rw [applyUpdate, getField_append, h1, hemp]
    simp [Option.or]
  · intro hne
    by_contra hguard
    apply hne
    have hguard' : truthy (jsField employee "pin") = false := by
      revert hguard
      cases truthy (jsField employee "pin") <;> simp
    rw [updateEmployeePayload]
    rw [hguard']
    simp only [if_neg Bool.false_ne_true]
    rw [getField_append]
    simp [getField, Option.or]

/-- C4 witness: a concrete input without a `pin` field gets no recomputed
`pin_hash` in the payload. -/
theorem updateEmployee_pin_hash_frame_witness :
    getField ([("id", Value.num 1)] : Row) "pin" = none ∧
    getField (updateEmployeePayload [("id", Value.num 1)] 5) "pin_hash" = none :=
  ⟨by decide,
    (((updateEmployee_pin_hash_frame [("id", Value.num 1)] 5 []).1
      (by decide)).1).trans (by decide)⟩

/-- C5: when the input's `pin` field is present but falsy (for example the
empty string), `updateEmployee` does not recompute `pin_hash` — the guard is
truthiness, not presence — yet the falsy `pin` value itself is still part of
the payload sent to the backend. -/
theorem updateEmployee_falsy_pin_no_recompute :
    ∀ (employee : Row) (now : Nat) (v : Value),
      getField employee "pin" = some v → truthy v = false →
      getField (updateEmployeePayload employee now) "pin_hash"
        = getField employee "pin_hash" ∧
      getField (updateEmployeePayload employee now) "pin" = some v := by
  intro employee now v hpin hfalsy
  have hguard : truthy (jsField employee "pin") = false := by
    simp [jsField, hpin, hfalsy]
  have hpayload : updateEmployeePayload employee now
      = employee ++ [("updated_at", Value.time now)] := by
    simp [updateEmployeePayload, hguard]
  rw [hpayload, getField_append, getField_append]
  constructor
  · simp [getField, Option.or]
  · simp [getField, Option.or, hpin]

/-- C5 witness: the empty-string pin at a concrete input. -/
theorem updateEmployee_falsy_pin_witness :
    getField (updateEmployeePayload [("id", Value.num 1), ("pin", Value.str "")] 5) "pin"
      = some (Value.str "") ∧
    getField (updateEmployeePayload [("id", Value.num 1), ("pin", Value.str "")] 5) "pin_hash"
      = none :=
  ⟨(updateEmployee_falsy_pin_no_recompute [("id", Value.num 1), ("pin", Value.str "")]
      5 (Value.str "") (by decide) (by decide)).2,
   ((updateEmployee_falsy_pin_no_recompute [("id", Value.num 1), ("pin", Value.str "")]
      5 (Value.str "") (by decide) (by decide)).1).trans (by decide)⟩

/-- C6: `getLowStockThreshold` returns `null` (never an error) both when no
row carries the key `LOW_STOCK_THRESHOLD` and when the backend reports an
error on this read; it never propagates a backend error. -/
theorem getLowStockThreshold_absent_or_error_is_null :
    ∀ (db : List Row) (err : Option String),
      (∀ msg, getLowStockThreshold db err ≠ .error msg) ∧
      (err.isSome = true → getLowStockThreshold db err = .ok none) ∧
      (db.filter isThresholdRow = [] → getLowStockThreshold db err = .ok none) := by
  intro db err
  cases err with
  | some m => simp [getLowStockThreshold]
  | none =>
    refine ⟨?_, by simp, ?_⟩
    · intro msg
      cases hf : (db.filter isThresholdRow).take 1 with
      | nil => simp [getLowStockThreshold, hf]
      | cons r t => simp [getLowStockThreshold, hf]
    · intro hf
      simp [getLowStockThreshold, hf]

/-- C6 witness: a backend error on the read still yields `null`. -/
theorem getLowStockThreshold_witness :
    getLowStockThreshold [] (some "backend down") = .ok none :=
  (getLowStockThreshold_absent_or_error_is_null [] (some "backend down")).2.1
    (by decide)

/-- C7: `addTask` generates `task_id` as the literal string `TASK` followed
by the current Unix time in milliseconds, stamps `created_at` with the call
time, adds no `updated_at` of its own, and two calls sharing the same
millisecond produce the same `task_id` whatever their payloads. -/
theorem addTask_id_timestamp_shape :
    ∀ (taskData : Row) (now : Nat),
      getField (addTaskRow taskData now) "task_id"
        = some (Value.str ("TASK" ++ toString now)) ∧
      getField (addTaskRow taskData now) "created_at" = some (Value.time now) ∧
      (getField taskData "updated_at" = none →
        getField (addTaskRow taskData now) "updated_at" = none) ∧
      (∀ d2 : Row, getField (addTaskRow taskData now) "task_id"
        = getField (addTaskRow d2 now) "task_id") := by
  intro taskData now
  have key : ∀ (d : Row), getField (addTaskRow d now) "task_id"
      = some (Value.str ("TASK" ++ toString now)) := by
    intro d
    rw [addTaskRow, getField_append]
    simp [getField, Option.or]
  refine ⟨key taskData, ?_, ?_, fun d2 => (key taskData).trans (key d2).symm⟩
  · rw [addTaskRow, getField_append]
    simp [getField, Option.or]
  · intro hupd
    rw [addTaskRow, getField_append]
    simp [getField, Option.or, hupd]

/-- C7 witness: concrete shape at time 1700000000000 with an empty payload. -/
theorem addTask_id_timestamp_shape_witness :
    getField (addTaskRow [] 1700000000000) "task_id"
      = some (Value.str "TASK1700000000000") ∧
    getField (addTaskRow [] 1700000000000) "updated_at" = none :=
  ⟨((addTask_id_timestamp_shape [] 1700000000000).1).trans (by decide),
   (addTask_id_timestamp_shape [] 1700000000000).2.2.1 (by decide)⟩

/-- C8: even when the input record to `addTask` already carries `task_id` or
`created_at` fields, the stored row's `task_id` is the generated
`TASK`-plus-timestamp string and its `created_at` the call-time stamp: the
generated bindings come after the input spread and override it. -/
theorem addTask_generated_fields_override_input :
    ∀ (taskData : Row) (now : Nat) (x y : Value),
      getField taskData "task_id" = some x →
      getField taskData "created_at" = some y →
      getField (addTaskRow taskData now) "task_id"
        = some (Value.str ("TASK" ++ toString now)) ∧
      getField (addTaskRow taskData now) "created_at"
        = some (Value.time now) := by
  intro taskData now x y hx hy
  constructor <;>
    · rw [addTaskRow, getField_append]
      simp [getField, Option.or]

/-- C8 witness: a payload that tries to smuggle its own `task_id` and
`created_at` is overridden by the generated values. -/
theorem addTask_override_witness :
    getField (addTaskRow [("task_id", Value.str "HACK"), ("created_at", Value.time 99)] 5)
        "task_id" = some (Value.str "TASK5") ∧
    getField (addTaskRow [("task_id", Value.str "HACK"), ("created_at", Value.time 99)] 5)
        "created_at" = some (Value.time 5) :=
  ⟨((addTask_generated_fields_override_input
      [("task_id", Value.str "HACK"), ("created_at", Value.time 99)] 5
      (Value.str "HACK") (Value.time 99) (by decide) (by decide)).1).trans (by decide),
   (addTask_generated_fields_override_input
      [("task_id", Value.str "HACK"), ("created_at", Value.time 99)] 5
      (Value.str "HACK") (Value.time 99) (by decide) (by decide)).2⟩

/-- C9: `deleteTask` and `deleteItem` return `{success: true}` whenever the
backend reports no error, for every id — including an id matching no row, in
which case the table is also left unchanged: no prior-existence check. -/
theorem delete_succeeds_without_existence_check :
    ∀ (taskId : String) (id : Value) (db : List Row),
      (∃ db1, deleteTask taskId db none = .ok (db1, ⟨true⟩)) ∧
      (∃ db2, deleteItem id db none = .ok (db2, ⟨true⟩)) ∧
      ((∀ r ∈ db, getField r "task_id" ≠ some (Value.str taskId)) →
        deleteTask taskId db none = .ok (db, ⟨true⟩)) ∧
      ((∀ r ∈ db, getField r "id" ≠ some id) →
        deleteItem id db none = .ok (db, ⟨true⟩)) := by
  intro taskId id db
  refine ⟨⟨_, rfl⟩, ⟨_, rfl⟩, ?_, ?_⟩
  · intro h
    have : db.filter (fun r => !(getField r "task_id" == some (Value.str taskId))) = db := by
      rw [List.filter_eq_self]
      intro r hr
      simpa using h r hr
    simp [deleteTask, this]
  · intro h
    have : db.filter (fun r => !(getField r "id" == some id)) = db := by
      rw [List.filter_eq_self]
      intro r hr
      simpa using h r hr
    simp [deleteItem, this]

/-- C9 witness: deleting the nonexistent `TASK123` from a one-row table
succeeds and leaves the table as it was. -/
theorem delete_no_existence_witness :
    deleteTask "TASK123" [[("task_id", Value.str "TASK999")]] none
      = .ok ([[("task_id", Value.str "TASK999")]], ⟨true⟩) :=
  (delete_succeeds_without_existence_check "TASK123" (Value.num 0)
      [[("task_id", Value.str "TASK999")]]).2.2.1 (by decide)

/-! ## Pattern-matching lemmas for `searchItems` -/

theorem suffixAny_congr (f g : List Char → Bool) (h : ∀ t, f t = g t) :
    ∀ s, suffixAny f s = suffixAny g s := by
  intro s
  induction s with
  | nil => simp [suffixAny, h]
  | cons c s ih => simp [suffixAny, h, ih]

theorem suffixAny_isEmpty (s : List Char) :
    suffixAny (fun t => List.isEmpty t) s = true := by
  induction s with
  | nil => rfl
  | cons c s ih => simp [suffixAny, ih]

theorem suffixAny_nil_pattern :
    ∀ s, suffixAny (fun t => likeMatch [] t) s = true := by
  intro s
  have h : (fun t : List Char => likeMatch [] t)
      = (fun t : List Char => List.isEmpty t) := by
    funext t; simp [likeMatch]
  rw [h]
  exact suffixAny_isEmpty s

theorem likeMatch_trailing_wild (q : List Char)
    (hq : ∀ c ∈ q, c ≠ '%' ∧ c ≠ '_') :
    ∀ s, likeMatch (q ++ ['%']) s = leadMatchCI q s := by
  induction q with
  | nil =>
    intro s
    simpa [likeMatch, leadMatchCI] using suffixAny_nil_pattern s
  | cons a as ih =>
    intro s
    have ha : a ≠ '%' ∧ a ≠ '_' := hq a (by simp)
    have has : ∀ c ∈ as, c ≠ '%' ∧ c ≠ '_' := fun c hc => hq c (by simp [hc])
    cases s with
    | nil => simp [likeMatch, leadMatchCI, ha.1]
    | cons c s' => simp [likeMatch, leadMatchCI, ha.1, ha.2, ih has]

theorem ilike_wrap_eq_containsCI (q : String)
    (hq : ∀ c ∈ q.data, c ≠ '%' ∧ c ≠ '_') (n : String) :
    ilike n ("%" ++ q ++ "%") = containsCI n q := by
  have hdata : ("%" ++ q ++ "%").data = '%' :: (q.data ++ ['%']) := rfl
  rw [ilike, containsCI, hdata]
  calc likeMatch ('%' :: (q.data ++ ['%'])) n.data
      = suffixAny (fun t => likeMatch (q.data ++ ['%']) t) n.data := by
        simp [likeMatch]
    _ = suffixAny (leadMatchCI q.data) n.data :=
        suffixAny_congr _ _ (fun t => likeMatch_trailing_wild q.data hq t) n.data

/-- C10, counterexample: the claim reads "for every query string, exactly
the items whose name contains the query as a case-insensitive substring",
but the query is spliced into an `ILIKE` pattern, so a query containing the
wildcard `%` matches names that do not contain it as a substring: with the
query `w%d`, `searchItems` keeps the item named `wood` although `wood` does
not contain `w%d`. -/
theorem searchItems_wildcard_query_cex :
    searchItems "w%d" [[("name", Value.str "wood")]] none
      = .ok [[("name", Value.str "wood")]] ∧
    containsCI "wood" "w%d" = false := by
  constructor <;> decide

/-- C10, amended: for every query string free of the `ILIKE` wildcards `%`
and `_`, `searchItems` returns exactly the items whose `name` contains the
query as a case-insensitive substring (so `wid` matches `Widget` and
`WIDGETRY` but not `Gadget`); a query containing `%` or `_` is instead
interpreted as a pattern. -/
theorem searchItems_wildcard_free_substring :
    ∀ (q : String) (db : List Row),
      (∀ c ∈ q.data, c ≠ '%' ∧ c ≠ '_') →
      searchItems q db none
        = .ok (db.filter (fun r =>
            match getField r "name" with
            | some (.str n) => containsCI n q
            | _ => false)) := by
  intro q db hq
  have hfun : (fun r : Row =>
      match getField r "name" with
      | some (.str n) => ilike n ("%" ++ q ++ "%")
      | _ => false)
      = (fun r : Row =>
      match getField r "name" with
      | some (.str n) => containsCI n q
      | _ => false) := by
    funext r
    cases hr : getField r "name" with
    | none => simp
    | some v =>
      cases v with
      | str n => simp [ilike_wrap_eq_containsCI q hq n]
      | num m => simp
      | time m => simp
      | undef => simp
  simp only [searchItems, hfun]

/-- C10 witness: the spec's own example, `wid` against `Widget`, `Gadget`
and `WIDGETRY`. -/
theorem searchItems_wildcard_free_witness :
    searchItems "wid"
      [[("name", Value.str "Widget")], [("name", Value.str "Gadget")],
       [("name", Value.str "WIDGETRY")]] none
      = .ok [[("name", Value.str "Widget")], [("name", Value.str "WIDGETRY")]] :=
  (searchItems_wildcard_free_substring "wid"
      [[("name", Value.str "Widget")], [("name", Value.str "Gadget")],
       [("name", Value.str "WIDGETRY")]] (by decide)).trans (by decide)

end WebAdmin
